import Mathlib

/-!
Verification development for the DocuMind retrieval-and-reranking engine.

The repository ships the reranking pipeline as Python code
(`search_with_reranking`, `classify_query_intent`, the adaptive scoring
weight table) together with the React front-end components
(`Chat.jsx`, `DocumentManager.jsx`).  This file gives a shallow
embedding of those functions in Lean and proves the specification's
testable properties about them.  Scores are modelled as rationals;
machine floats only ever enter through comparisons and weighted sums,
whose ordering behaviour the claims are about.
-/

namespace DocuMind

/-- A retrievable document fragment: identifier plus raw text
(`chunks = results['documents'][0]` in `search_with_reranking`). -/
structure Frag where
  fid : Nat
  text : String
deriving DecidableEq

/-- Lookup of `scores[i]` used by the reranking index sort. -/
def scoreAt (scores : List ℚ) (i : Nat) : ℚ :=
  scores.getD i 0

/-- The comparison used by `sorted(range(len(scores)), key=lambda i: scores[i],
reverse=True)`: index `i` may come before `j` when its score is at least as
large.  Python's `sorted` is the stable sort by this total preorder, and the
stable sort with respect to a total preorder is unique, so `insertionSort`
computes the same list. -/
def leScore (scores : List ℚ) (i j : Nat) : Prop :=
  scoreAt scores j ≤ scoreAt scores i

instance (scores : List ℚ) : DecidableRel (leScore scores) := by
  intro i j
  unfold leScore
  infer_instance

/-- The `top_indices` of `search_with_reranking` before truncation:
`sorted(range(len(scores)), key=lambda i: scores[i], reverse=True)`. -/
def rankIndices (scores : List ℚ) : List Nat :=
  List.insertionSort (leScore scores) (List.range scores.length)

/-- Core of `search_with_reranking`: score every chunk, sort indices by
score descending (stable), keep the first `final_top_k`, and return the
chunks with their scores in that order. -/
def rankCandidates (chunks : List Frag) (scoreOf : Frag → ℚ)
    (final_top_k : Nat) : List (Frag × ℚ) :=
  let scores := chunks.map scoreOf
  ((rankIndices scores).take final_top_k).map
    (fun i => (chunks.getD i ⟨0, ""⟩, scoreAt scores i))

/-- Function `search_with_reranking` from `vector_db.py`: broad retrieval produced
`chunks`; each chunk is scored by `calculate_relevance_score(query_text, chunk)`
(abstracted as the parameter `rel`), and the top `final_top_k` are returned. -/
def search_with_reranking (rel : String → String → ℚ) (query_text : String)
    (chunks : List Frag) (final_top_k : Nat) : List (Frag × ℚ) :=
  rankCandidates chunks (fun c => rel query_text c.text) final_top_k

theorem rankIndices_perm (scores : List ℚ) :
    List.Perm (rankIndices scores) (List.range scores.length) :=
  List.perm_insertionSort _ _

theorem rankIndices_length (scores : List ℚ) :
    (rankIndices scores).length = scores.length := by
  simpa using (rankIndices_perm scores).length_eq

theorem rankIndices_lt (scores : List ℚ) {i : Nat} (h : i ∈ rankIndices scores) :
    i < scores.length := by
  have := (rankIndices_perm scores).mem_iff.mp h
  simpa using this

theorem rankIndices_nodup (scores : List ℚ) : (rankIndices scores).Nodup :=
  ((rankIndices_perm scores).nodup_iff).mpr (List.nodup_range _)

theorem fid_getD_inj (chunks : List Frag)
    (hnd : (chunks.map Frag.fid).Nodup) {i j : Nat}
    (hi : i < chunks.length) (hj : j < chunks.length)
    (h : (chunks.getD i ⟨0, ""⟩).fid = (chunks.getD j ⟨0, ""⟩).fid) : i = j := by
  have hi' : i < (chunks.map Frag.fid).length := by simpa using hi
  have hj' : j < (chunks.map Frag.fid).length := by simpa using hj
  rw [List.getD_eq_getElem _ _ hi, List.getD_eq_getElem _ _ hj] at h
  have h2 : (chunks.map Frag.fid).get ⟨i, hi'⟩ = (chunks.map Frag.fid).get ⟨j, hj'⟩ := by
    simpa using h
  exact congrArg Fin.val (hnd.get_inj_iff.mp h2)

theorem rankCandidates_length (chunks : List Frag) (scoreOf : Frag → ℚ) (k : Nat) :
    (rankCandidates chunks scoreOf k).length = min k chunks.length := by
  unfold rankCandidates
  simp [rankIndices_length]

theorem rankCandidates_nodup (chunks : List Frag) (scoreOf : Frag → ℚ) (k : Nat)
    (hnd : (chunks.map Frag.fid).Nodup) :
    ((rankCandidates chunks scoreOf k).map (fun p => p.1.fid)).Nodup := by
  unfold rankCandidates
  rw [List.map_map]
  refine List.Nodup.map_on ?_ ?_
  · intro x hx y hy hxy
    have hx' : x < chunks.length := by
      have := rankIndices_lt _ ((List.take_sublist _ _).mem hx)
      simpa using this
    have hy' : y < chunks.length := by
      have := rankIndices_lt _ ((List.take_sublist _ _).mem hy)
      simpa using this
    exact fid_getD_inj chunks hnd hx' hy' hxy
  · exact (List.take_sublist _ _).nodup (rankIndices_nodup _)

/-- C1: the RankedResult of `search_with_reranking` has length
`min final_top_k (pool size)` — hence at most `top_k`, and exactly the pool
size when the pool is smaller, with no padding — and, provided the scored
candidate pool carries pairwise-distinct Fragment identifiers, the result
contains no two entries with the same Fragment identifier. -/
theorem ranked_length_nodup (rel : String → String → ℚ) (q : String)
    (chunks : List Frag) (k : Nat)
    (hnd : (chunks.map Frag.fid).Nodup) :
    (search_with_reranking rel q chunks k).length = min k chunks.length ∧
    ((search_with_reranking rel q chunks k).map (fun p => p.1.fid)).Nodup :=
  ⟨rankCandidates_length .., rankCandidates_nodup _ _ _ hnd⟩

/-- Witness for C1 at a concrete pool of two fragments and `top_k = 5`. -/
theorem ranked_length_nodup_witness :
    (search_with_reranking (fun _ _ => 0) "q" [⟨1, "a"⟩, ⟨2, "b"⟩] 5).length =
      min 5 ([⟨1, "a"⟩, ⟨2, "b"⟩] : List Frag).length ∧
    ((search_with_reranking (fun _ _ => 0) "q" [⟨1, "a"⟩, ⟨2, "b"⟩] 5).map
      (fun p => p.1.fid)).Nodup :=
  ranked_length_nodup (fun _ _ => 0) "q" [⟨1, "a"⟩, ⟨2, "b"⟩] 5 (by decide)

/-! ### C2: order of the reranked sequence -/

/-- The stable descending order actually realised by the index sort: a strictly
better score comes first, and exact score ties keep the original pool position
(the smaller index first). -/
def rStable (scores : List ℚ) (i j : Nat) : Prop :=
  scoreAt scores j < scoreAt scores i ∨
    (scoreAt scores i = scoreAt scores j ∧ i < j)

instance (scores : List ℚ) : IsTotal Nat (leScore scores) :=
  ⟨fun i j => le_total (scoreAt scores j) (scoreAt scores i)⟩

instance (scores : List ℚ) : IsTrans Nat (leScore scores) :=
  ⟨fun _ _ _ h1 h2 => le_trans h2 h1⟩

theorem pairwise_orderedInsert (scores : List ℚ) (a : Nat) (l : List Nat)
    (hl : l.Pairwise (rStable scores)) (ha : ∀ b ∈ l, a < b) :
    (List.orderedInsert (leScore scores) a l).Pairwise (rStable scores) := by
  induction l with
  | nil => simp [List.pairwise_singleton]
  | cons b t ih =>
    rw [List.orderedInsert]
    split_ifs with hab
    · have hab' : scoreAt scores b ≤ scoreAt scores a := hab
      refine List.Pairwise.cons ?_ hl
      intro c hc
      rcases List.mem_cons.mp hc with rfl | hct
      · rcases lt_or_eq_of_le hab' with h | h
        · exact Or.inl h
        · exact Or.inr ⟨h.symm, ha _ (List.mem_cons_self ..)⟩
      · have hbc := (List.pairwise_cons.mp hl).1 c hct
        rcases hbc with h | ⟨heq, _⟩
        · exact Or.inl (lt_of_lt_of_le h hab')
        · rcases lt_or_eq_of_le (heq ▸ hab') with h2 | h2
          · exact Or.inl h2
          · exact Or.inr ⟨h2.symm, ha c (List.mem_cons_of_mem _ hct)⟩
    · have hba : scoreAt scores a < scoreAt scores b := lt_of_not_le hab
      refine List.Pairwise.cons ?_
        (ih (List.pairwise_cons.mp hl).2
          (fun c hc => ha c (List.mem_cons_of_mem _ hc)))
      intro c hc
      rcases (List.mem_orderedInsert _).mp hc with rfl | hct
      · exact Or.inl hba
      · exact (List.pairwise_cons.mp hl).1 c hct

theorem pairwise_insertionSort_stable (scores : List ℚ) :
    ∀ l : List Nat, l.Pairwise (· < ·) →
      (List.insertionSort (leScore scores) l).Pairwise (rStable scores)
  | [], _ => by simp
  | a :: l, h => by
    rw [List.insertionSort]
    have h' := List.pairwise_cons.mp h
    refine pairwise_orderedInsert scores a _
      (pairwise_insertionSort_stable scores l h'.2) ?_
    intro b hb
    exact h'.1 b ((List.perm_insertionSort _ l).mem_iff.mp hb)

theorem rankIndices_pairwise (scores : List ℚ) :
    (rankIndices scores).Pairwise (rStable scores) :=
  pairwise_insertionSort_stable scores _ (List.pairwise_lt_range _)

/-- C2 counterexample: at a pool of two fragments with equal composite score
whose identifiers are listed in decreasing order, `search_with_reranking`
returns them in pool order (identifiers `[2, 1]`), so the output is not ordered
by "score descending with ties broken by Fragment identifier". -/
theorem tiebreak_by_fid_refuted :
    ((search_with_reranking (fun _ _ => 1) "q" [⟨2, "b"⟩, ⟨1, "a"⟩] 5).map
        (fun p => (p.1.fid, p.2))) = [(2, 1), (1, 1)] ∧
    ¬ ((search_with_reranking (fun _ _ => 1) "q" [⟨2, "b"⟩, ⟨1, "a"⟩] 5).map
        (fun p => (p.1.fid, p.2))).Pairwise
        (fun a b => b.2 < a.2 ∨ (a.2 = b.2 ∧ a.1 < b.1)) := by
  constructor
  · decide
  · decide

/-- C2 (amended): `search_with_reranking` orders the final sequence by
composite score descending using a stable sort whose ties are broken by the
original pool position (not the Fragment identifier), and the scores along the
returned RankedResult are monotonically non-increasing (there is no backfill
pass in this routine). -/
theorem rerank_sorted_stable (rel : String → String → ℚ) (q : String)
    (chunks : List Frag) (k : Nat) :
    (rankIndices (chunks.map (fun c => rel q c.text))).Pairwise
      (rStable (chunks.map (fun c => rel q c.text))) ∧
    ((search_with_reranking rel q chunks k).map Prod.snd).Pairwise
      (fun a b => b ≤ a) := by
  refine ⟨rankIndices_pairwise _, ?_⟩
  unfold search_with_reranking rankCandidates
  rw [List.map_map]
  refine List.Pairwise.map _ ?_
    (((rankIndices_pairwise _).sublist (List.take_sublist _ _)))
  intro i j hij
  rcases hij with h | ⟨h, _⟩
  · exact le_of_lt h
  · exact le_of_eq h.symm

/-! ### C4/C5: the adaptive scoring weight table -/

/-- The nine relevance signals of the hybrid scorer, each normalized
to `[0,1]` by the signal computations. -/
structure Signals where
  semantic : ℚ
  lexical : ℚ
  hyde : ℚ
  concepts : ℚ
  exclusions : ℚ
  context : ℚ
  multi : ℚ
  length : ℚ
  metadata : ℚ

/-- Adaptive composite score, transcribed from the scoring algorithm:
an `if/elif` chain on `query_type` with one weighted-sum formula per branch
(any unrecognised type falls through to the `general` formula). -/
def compositeScore (query_type : String) (s : Signals) : ℚ :=
  if query_type = "definition" then
    40/100 * s.semantic + 25/100 * s.concepts + 15/100 * s.lexical +
      10/100 * s.hyde + 5/100 * s.context + 5/100 * s.multi
  else if query_type = "exclusion" then
    30/100 * s.semantic + 30/100 * s.exclusions + 20/100 * s.lexical +
      10/100 * s.context + 10/100 * s.multi
  else if query_type = "coverage" then
    35/100 * s.semantic + 25/100 * s.lexical + 15/100 * s.concepts +
      10/100 * s.hyde + 10/100 * s.context + 5/100 * s.multi
  else
    35/100 * s.semantic + 20/100 * s.lexical + 15/100 * s.concepts +
      10/100 * s.hyde + 8/100 * s.exclusions + 7/100 * s.context +
      3/100 * s.length + 2/100 * s.metadata

/-- The weight vector over the nine signals that each branch of
`compositeScore` uses; signals absent from a branch's formula carry
weight `0`. -/
def weightVec (query_type : String) : Signals :=
  if query_type = "definition" then
    ⟨40/100, 15/100, 10/100, 25/100, 0, 5/100, 5/100, 0, 0⟩
  else if query_type = "exclusion" then
    ⟨30/100, 20/100, 0, 0, 30/100, 10/100, 10/100, 0, 0⟩
  else if query_type = "coverage" then
    ⟨35/100, 25/100, 10/100, 15/100, 0, 10/100, 5/100, 0, 0⟩
  else
    ⟨35/100, 20/100, 10/100, 15/100, 8/100, 7/100, 0, 3/100, 2/100⟩

/-- Pointwise product of a weight vector with a signal vector, summed. -/
def dotSignals (w s : Signals) : ℚ :=
  w.semantic * s.semantic + w.lexical * s.lexical + w.hyde * s.hyde +
    w.concepts * s.concepts + w.exclusions * s.exclusions +
    w.context * s.context + w.multi * s.multi + w.length * s.length +
    w.metadata * s.metadata

/-- Sum of the nine entries of a weight vector. -/
def sumSignals (w : Signals) : ℚ :=
  w.semantic + w.lexical + w.hyde + w.concepts + w.exclusions +
    w.context + w.multi + w.length + w.metadata

/-- C4: for each of the four query types, the composite score is the dot
product of the signal vector with the type's weight vector over all nine
signals, and each of the four weight vectors sums to exactly `1`. -/
theorem weights_sum_one :
    (∀ query_type s, compositeScore query_type s =
      dotSignals (weightVec query_type) s) ∧
    sumSignals (weightVec "definition") = 1 ∧
    sumSignals (weightVec "exclusion") = 1 ∧
    sumSignals (weightVec "coverage") = 1 ∧
    sumSignals (weightVec "general") = 1 := by
  refine ⟨?_, ?_, ?_, ?_, ?_⟩
  · intro qt s
    unfold compositeScore weightVec dotSignals
    split_ifs <;> ring
  · rw [weightVec, if_pos rfl]
    norm_num [sumSignals]
  · rw [weightVec, if_neg (by simp), if_pos rfl]
    norm_num [sumSignals]
  · rw [weightVec, if_neg (by simp), if_neg (by simp), if_pos rfl]
    norm_num [sumSignals]
  · rw [weightVec, if_neg (by simp), if_neg (by simp), if_neg (by simp)]
    norm_num [sumSignals]

/-- C5: scoring and reranking are deterministic — two runs of the composite
score on the same signals and weight table, and two runs of
`search_with_reranking` on the same query, frozen pool and scorer, produce
bit-identical values (the functions are pure; there is no hidden randomness). -/
theorem scoring_rerank_deterministic (query_type : String) (s : Signals)
    (rel : String → String → ℚ) (q : String) (chunks : List Frag) (k : Nat)
    (c1 c2 : ℚ) (r1 r2 : List (Frag × ℚ))
    (hc1 : c1 = compositeScore query_type s)
    (hc2 : c2 = compositeScore query_type s)
    (hr1 : r1 = search_with_reranking rel q chunks k)
    (hr2 : r2 = search_with_reranking rel q chunks k) :
    c1 = c2 ∧ r1 = r2 := by
  subst hc1 hc2 hr1 hr2
  exact ⟨rfl, rfl⟩

/-- Witness for C5 at concrete inputs. -/
theorem scoring_rerank_deterministic_witness :
    compositeScore "general" ⟨1, 0, 0, 0, 0, 0, 0, 0, 0⟩ =
      compositeScore "general" ⟨1, 0, 0, 0, 0, 0, 0, 0, 0⟩ ∧
    search_with_reranking (fun _ _ => 0) "q" [⟨1, "a"⟩] 3 =
      search_with_reranking (fun _ _ => 0) "q" [⟨1, "a"⟩] 3 :=
  scoring_rerank_deterministic "general" ⟨1, 0, 0, 0, 0, 0, 0, 0, 0⟩
    (fun _ _ => 0) "q" [⟨1, "a"⟩] 3 _ _ _ _ rfl rfl rfl rfl

/-! ### C7: query-intent classification -/

/-- Python's `str.lower()` on the character sequence of a string. -/
def lowerStr (s : String) : String :=
  ⟨s.data.map Char.toLower⟩

/-- Whether the first list is a prefix of the second (character-wise). -/
def prefixChars : List Char → List Char → Bool
  | [], _ => true
  | _ :: _, [] => false
  | a :: as, b :: bs => a == b && prefixChars as bs

/-- Whether `needle` occurs contiguously inside `hay`. -/
def subChars (needle : List Char) : List Char → Bool
  | [] => needle.isEmpty
  | h :: t => prefixChars needle (h :: t) || subChars needle t

/-- Python's `needle in hay` substring test. -/
def containsSub (hay needle : String) : Bool :=
  subChars needle.data hay.data

/-- Python's `any(word in query_lower for word in words)`. -/
def containsAnyWord (hay : String) (words : List String) : Bool :=
  words.any (fun w => containsSub hay w)

/-- Function `classify_query_intent` transcribed from `vector_db.py`'s
intent-based-search section. -/
def classify_query_intent (query : String) : String :=
  let query_lower := lowerStr query
  if containsAnyWord query_lower ["what is", "define", "definition", "meaning"] then
    "definition"
  else if containsAnyWord query_lower ["does it cover", "coverage", "included"] then
    "coverage_check"
  else if containsAnyWord query_lower ["how much", "limit", "sum"] then
    "amount_query"
  else
    "general"

/-- C7 counterexample: on the query `"does it cover dental"` the classifier
returns `"coverage_check"`, which is not among the four enumerated values
`definition`, `exclusion`, `coverage`, `general` claimed by the spec. -/
theorem classify_enum_refuted :
    classify_query_intent "does it cover dental" = "coverage_check" ∧
    classify_query_intent "does it cover dental" ∉
      (["definition", "exclusion", "coverage", "general"] : List String) := by
  have e : classify_query_intent "does it cover dental" = "coverage_check" := rfl
  refine ⟨e, ?_⟩
  intro h
  rw [e] at h
  simp at h

/-- C7 (amended): for every input query string, `classify_query_intent`
returns one of exactly the four values `definition`, `coverage_check`,
`amount_query`, `general`, and no other value. -/
theorem classify_returns_four_values (query : String) :
    classify_query_intent query ∈
      (["definition", "coverage_check", "amount_query", "general"] : List String) := by
  unfold classify_query_intent
  dsimp only
  split_ifs <;> simp

/-! ### C3: diversity-aware reranking with per-source cap and backfill -/

/-- A scored candidate entering the Diversity Reranker: fragment identifier,
source-document identifier, composite score. -/
structure Scored where
  fid : Nat
  src : Nat
  score : ℚ
deriving DecidableEq

/-- Number of already-admitted fragments contributed by source document `s`. -/
def countSrc (sel : List Scored) (s : Nat) : Nat :=
  (sel.filter (fun c => c.src == s)).length

/-- Modelled from the spec: the Diversity Reranker implementation is not under
`src/` (§4.5 describes it; the improvements document only summarises it as
"max 2-3 chunks per document" with a "smart fallback").  Sort candidates
descending by composite score, ties broken by Fragment identifier. -/
def sortScored (l : List Scored) : List Scored :=
  List.insertionSort
    (fun a b => b.score < a.score ∨ (a.score = b.score ∧ a.fid ≤ b.fid)) l

/-- Modelled from the spec: greedy pass of the Diversity Reranker — walk the
sorted candidates in score order, admitting a candidate only if fewer than
`top_k` are admitted so far and its source document has not yet reached
`max_per_source` admitted fragments. -/
def greedyPass (max_per_source top_k : Nat) (sel : List Scored) :
    List Scored → List Scored
  | [] => sel
  | c :: rest =>
    if sel.length < top_k ∧ countSrc sel c.src < max_per_source then
      greedyPass max_per_source top_k (sel ++ [c]) rest
    else
      greedyPass max_per_source top_k sel rest

/-- Modelled from the spec: `rerank(scored_candidates, top_k, max_per_source)`.
If the greedy pass yields fewer than `top_k` results, remaining slots are
backfilled from the highest-scoring not-yet-selected candidates regardless of
the cap, preserving overall score order; the Boolean records the
diversity-shortfall condition that is reported when backfill was required. -/
def rerank_diversity (scored_candidates : List Scored)
    (top_k max_per_source : Nat) : List Scored × Bool :=
  let sorted := sortScored scored_candidates
  let sel := greedyPass max_per_source top_k [] sorted
  if sel.length < top_k then
    let extra :=
      (sorted.filter (fun c => ¬ sel.any (fun d => d.fid == c.fid))).take
        (top_k - sel.length)
    (sorted.filter
        (fun c => sel.any (fun d => d.fid == c.fid) ||
          extra.any (fun d => d.fid == c.fid)),
      true)
  else
    (sel, false)

theorem greedyPass_countSrc (max_per_source top_k : Nat) (s : Nat) :
    ∀ (l sel : List Scored), countSrc sel s ≤ max_per_source →
      countSrc (greedyPass max_per_source top_k sel l) s ≤ max_per_source
  | [], sel, h => h
  | c :: rest, sel, h => by
    rw [greedyPass]
    split_ifs with hc
    · refine greedyPass_countSrc max_per_source top_k s rest _ ?_
      unfold countSrc
      rw [List.filter_append, List.length_append]
      by_cases hsrc : c.src = s
      · have : countSrc sel s < max_per_source := hsrc ▸ hc.2
        simpa [countSrc, hsrc] using this
      · simpa [countSrc, hsrc] using h
    · exact greedyPass_countSrc max_per_source top_k s rest sel h

/-- C3: whenever the Diversity Reranker reports no diversity shortfall
(no backfill was required), no source document contributes more than
`max_per_source` fragments to the RankedResult; violations of the cap can only
occur together with the reported shortfall flag. -/
theorem diversity_cap_respected (scored_candidates : List Scored)
    (top_k max_per_source : Nat)
    (hflag : (rerank_diversity scored_candidates top_k max_per_source).2 = false) :
    ∀ s, countSrc (rerank_diversity scored_candidates top_k max_per_source).1 s ≤
      max_per_source := by
  intro s
  unfold rerank_diversity at hflag ⊢
  dsimp only at hflag ⊢
  split_ifs at hflag ⊢
  exact greedyPass_countSrc max_per_source top_k s _ []
    (by simp [countSrc])

/-- Witness for C3: a two-candidate pool from two distinct sources with
`top_k = 1`, `max_per_source = 1`; the greedy pass fills all slots, no
backfill is reported, and the cap holds. -/
theorem diversity_cap_respected_witness :
    countSrc (rerank_diversity [⟨1, 1, 1⟩, ⟨2, 2, 2⟩] 1 1).1 1 ≤ 1 :=
  diversity_cap_respected [⟨1, 1, 1⟩, ⟨2, 2, 2⟩] 1 1 (by decide) 1

/-! ### C6: non-fatal query expansion and the degraded pipeline -/

/-- Expansion artifacts derived from a query (§3): query type, semantic
rephrasings, key concept terms, hypothetical answers, context hints. -/
structure QueryExpansion where
  query_type : String
  variants : List String
  concepts : List String
  hypos : List String
  hints : List String
deriving DecidableEq

/-- The degraded expansion: `query_type = general`, empty concept and
context-hint sets, zero hypothetical answers (and no variants). -/
def degradedExpansion : QueryExpansion :=
  ⟨"general", [], [], [], []⟩

/-- Modelled from the spec: the Query Expander implementation is not under
`src/` (§4.2).  The generation collaborator's parsed output is `some e`;
`none` stands for failure, timeout, or malformed output, which must degrade
to `degradedExpansion` instead of raising. -/
def expand (genResult : Option QueryExpansion) : QueryExpansion :=
  match genResult with
  | none => degradedExpansion
  | some e => e

/-- Deduplicate a candidate list by Fragment identifier, keeping the first
occurrence (reduce-by-key of §4.3, restricted to what C6 needs). -/
def dedupByFid (l : List Frag) : List Frag :=
  l.foldl
    (fun acc c => if acc.any (fun d => d.fid == c.fid) then acc else acc ++ [c])
    []

/-- Modelled from the spec: the Multi-Query Retriever implementation is not
under `src/` (§4.3).  Issue the original query, each semantic variant, and
each hypothetical answer against the embedding store and deduplicate the
union by Fragment identifier. -/
def retrieve (store : String → List Frag) (q : String)
    (e : QueryExpansion) : List Frag :=
  dedupByFid (store q ++ ((e.variants ++ e.hypos).map store).flatten)

/-- Modelled from the spec: the end-to-end pipeline for one query — expand,
retrieve, score each candidate with the weights of the resolved query type
(`sig` is the nine-signal computation), rerank, return the RankedResult. -/
def pipeline (store : String → List Frag) (sig : String → Frag → Signals)
    (genResult : Option QueryExpansion) (q : String) (top_k : Nat) :
    List (Frag × ℚ) :=
  let e := expand genResult
  rankCandidates (retrieve store q e)
    (fun c => compositeScore e.query_type (sig q c)) top_k

/-- C6: if the generation collaborator fails or returns malformed output
(`genResult = none`), `expand` returns — not raises — the degraded
QueryExpansion with `query_type = general`, empty concept and context-hint
sets, and zero hypothetical answers, and the pipeline still produces its
RankedResult from original-query-only retrieval scored under the `general`
weight vector. -/
theorem expansion_degrades_nonfatal (store : String → List Frag)
    (sig : String → Frag → Signals) (q : String) (top_k : Nat) :
    expand none = degradedExpansion ∧
    (expand none).query_type = "general" ∧
    (expand none).concepts = [] ∧
    (expand none).hints = [] ∧
    (expand none).hypos = [] ∧
    pipeline store sig none q top_k =
      rankCandidates (dedupByFid (store q))
        (fun c => compositeScore "general" (sig q c)) top_k := by
  refine ⟨rfl, rfl, rfl, rfl, rfl, ?_⟩
  unfold pipeline retrieve expand degradedExpansion
  simp

/-! ### C8: the Lexical Scorer never divides by zero and zeroes out on
empty input -/

/-- Stop words removed before token-overlap scoring. -/
def stopwords : List String :=
  ["the", "a", "an", "of", "is", "in", "to", "and"]

/-- Split a character stream into space-separated words (accumulator holds
the current word reversed). -/
def wordsAux (cur : List Char) : List Char → List (List Char)
  | [] => if cur.isEmpty then [] else [cur.reverse]
  | c :: rest =>
    if c = ' ' then
      if cur.isEmpty then wordsAux [] rest else cur.reverse :: wordsAux [] rest
    else wordsAux (c :: cur) rest

/-- Modelled from the spec: tokenization of the Lexical Scorer, whose
implementation is not under `src/` (§4.1) — lower-cased, whitespace-split,
stop-word-filtered tokens. -/
def tokenize (s : String) : List String :=
  ((wordsAux [] s.data).map (fun w => String.mk (w.map Char.toLower))).filter
    (fun t => ¬ t ∈ stopwords)

/-- Modelled from the spec: component 1, Jaccard token-set overlap. -/
def jaccard (q f : String) : ℚ :=
  let qt := (tokenize q).dedup
  let ft := (tokenize f).dedup
  if qt.isEmpty || ft.isEmpty then 0
  else ((qt.filter (fun t => t ∈ ft)).length : ℚ) / ((qt ∪ ft).length : ℚ)

/-- Saturated in-fragment term frequency `tf / (tf + k)` with `k = 1`. -/
def tfSat (tf : Nat) : ℚ :=
  (tf : ℚ) / ((tf : ℚ) + 1)

/-- Modelled from the spec: component 2, rarity-weighted (BM25-style) term
match; `idf` is the collaborator-supplied `log(1 + corpus_size/df)` weight. -/
def bm25Score (idf : String → ℚ) (q f : String) : ℚ :=
  let qt := tokenize q
  let ft := tokenize f
  if qt.isEmpty || ft.isEmpty then 0
  else ((qt.map (fun t => idf t * tfSat (ft.count t))).sum) / (qt.length : ℚ)

/-- Adjacent token bigrams of a token list. -/
def bigrams : List String → List (String × String)
  | a :: b :: rest => (a, b) :: bigrams (b :: rest)
  | _ => []

/-- Whether the token pair `p` occurs adjacently in the token list. -/
def containsPair (p : String × String) : List String → Bool
  | a :: b :: rest => (a == p.1 && b == p.2) || containsPair p (b :: rest)
  | _ => false

theorem containsPair_nil (p : String × String) : containsPair p [] = false :=
  rfl

/-- Modelled from the spec: component 3, fraction of query bigrams found
verbatim in the fragment. -/
def bigramScore (q f : String) : ℚ :=
  let qb := bigrams (tokenize q)
  let ft := tokenize f
  if qb.isEmpty then 0
  else ((qb.countP (fun p => containsPair p ft)) : ℚ) / (qb.length : ℚ)

/-- Modelled from the spec: component 4, fraction of distinct query tokens
appearing anywhere in the fragment. -/
def coverageScore (q f : String) : ℚ :=
  let qt := (tokenize q).dedup
  let ft := tokenize f
  if qt.isEmpty then 0
  else ((qt.filter (fun t => t ∈ ft)).length : ℚ) / (qt.length : ℚ)

/-- Longest common subsequence length of two character lists. -/
def lcs : List Char → List Char → Nat
  | [], _ => 0
  | _ :: _, [] => 0
  | a :: as, b :: bs =>
    if a == b then 1 + lcs as bs
    else max (lcs (a :: as) bs) (lcs as (b :: bs))
termination_by x y => x.length + y.length

/-- Modelled from the spec: component 5, fuzzy sequence similarity as the
longest-common-subsequence ratio between query and fragment text. -/
def fuzzyScore (q f : String) : ℚ :=
  if q.data.isEmpty || f.data.isEmpty then 0
  else (2 * (lcs q.data f.data : ℚ)) /
    ((q.data.length : ℚ) + (f.data.length : ℚ))

/-- The five independent component scores of the Lexical Scorer (§4.1). -/
def lexicalComponents (idf : String → ℚ) (q f : String) : ℚ × ℚ × ℚ × ℚ × ℚ :=
  (jaccard q f, bm25Score idf q f, bigramScore q f, coverageScore q f,
    fuzzyScore q f)

/-- C8: on an empty query string or an empty fragment text, all five
component scores of the Lexical Scorer are exactly `0`; every guard fires
before any quotient is formed, so no division-by-zero occurs, and the
(total) signal functions return the neutral value instead of raising. -/
theorem lexical_empty_zero (idf : String → ℚ) (q f : String)
    (h : q = "" ∨ f = "") :
    lexicalComponents idf q f = (0, 0, 0, 0, 0) := by
  have ht : tokenize "" = [] := rfl
  rcases h with rfl | rfl
  · unfold lexicalComponents jaccard bm25Score bigramScore coverageScore
      fuzzyScore
    simp [ht, bigrams]
  · unfold lexicalComponents jaccard bm25Score bigramScore coverageScore
      fuzzyScore
    simp [ht, containsPair_nil]

/-- Witness for C8 at the empty query against a nonempty fragment. -/
theorem lexical_empty_zero_witness :
    lexicalComponents (fun _ => 0) "" "not covered here" = (0, 0, 0, 0, 0) :=
  lexical_empty_zero (fun _ => 0) "" "not covered here" (Or.inl rfl)

/-! ### C9: DocumentManager.jsx file selection -/

/-- The observable attributes of a browser `File` object used by
`handleFileSelect`: MIME type, name, size in bytes. -/
structure JSFile where
  mimeType : String
  fname : String
  size : Nat
deriving DecidableEq

/-- The component state touched by `handleFileSelect`. -/
structure DMState where
  selectedFile : Option JSFile
  error : String
deriving DecidableEq

/-- The `validTypes` list from `DocumentManager.jsx`. -/
def validTypes : List String :=
  ["application/pdf", "text/plain",
    "application/vnd.openxmlformats-officedocument.wordprocessingml.document"]

/-- Whether the character list `suf` is a suffix of `l`. -/
def suffixChars (suf l : List Char) : Bool :=
  prefixChars suf.reverse l.reverse

/-- JavaScript `name.endsWith(".txt")`. -/
def endsWithTxt (name : String) : Bool :=
  suffixChars ".txt".data name.data

/-- Handler `handleFileSelect` from `DocumentManager.jsx`: reject on invalid MIME
type (unless the name ends in `.txt`), then reject on size above 50MB
(`52428800` bytes), leaving the selected file unchanged with an error
message; otherwise select the file and clear the error. -/
def handleFileSelect (s : DMState) (file : Option JSFile) : DMState :=
  match file with
  | none => s
  | some f =>
    if !(validTypes.contains f.mimeType) && !(endsWithTxt f.fname) then
      { s with
        error := "Invalid file type. Please upload PDF, TXT, or DOCX files." }
    else if 52428800 < f.size then
      { s with error := "File too large. Maximum size is 50MB." }
    else
      { selectedFile := some f, error := "" }

/-- C9: a chosen file becomes the selected file exactly when its MIME type is
one of the three accepted types or its name ends in `.txt`, and its size is at
most `52428800` bytes; a file failing either check leaves the selected-file
state unchanged and sets a nonempty error message instead. -/
theorem file_select_validation (s : DMState) (f : JSFile) :
    (((validTypes.contains f.mimeType || endsWithTxt f.fname) &&
        decide (f.size ≤ 52428800)) = true →
      handleFileSelect s (some f) = ⟨some f, ""⟩) ∧
    (((validTypes.contains f.mimeType || endsWithTxt f.fname) &&
        decide (f.size ≤ 52428800)) = false →
      (handleFileSelect s (some f)).selectedFile = s.selectedFile ∧
        (handleFileSelect s (some f)).error ≠ "") := by
  have hsome : handleFileSelect s (some f) =
      if !(validTypes.contains f.mimeType) && !(endsWithTxt f.fname) then
        { s with
          error := "Invalid file type. Please upload PDF, TXT, or DOCX files." }
      else if 52428800 < f.size then
        { s with error := "File too large. Maximum size is 50MB." }
      else ⟨some f, ""⟩ := rfl
  constructor
  · intro h
    rw [Bool.and_eq_true] at h
    have hle : f.size ≤ 52428800 := of_decide_eq_true h.2
    have hcond : (!(validTypes.contains f.mimeType) &&
        !(endsWithTxt f.fname)) = false := by
      rcases (Bool.or_eq_true _ _).mp h.1 with h1 | h1 <;>
        simp only [h1, Bool.not_true, Bool.false_and, Bool.and_false]
    rw [hsome, hcond, if_neg (by simp), if_neg (by omega : ¬ 52428800 < f.size)]
  · intro h
    rw [hsome]
    cases hA : validTypes.contains f.mimeType <;>
      cases hB : endsWithTxt f.fname <;>
        by_cases hS : 52428800 < f.size <;>
          simp_all

/-- Witness for C9: a valid plain-text file is accepted; an oversized PDF is
rejected with the selected file left unchanged and an error set. -/
theorem file_select_validation_witness :
    handleFileSelect ⟨none, ""⟩ (some ⟨"text/plain", "notes.txt", 100⟩) =
      ⟨some ⟨"text/plain", "notes.txt", 100⟩, ""⟩ ∧
    ((handleFileSelect ⟨none, ""⟩
        (some ⟨"application/pdf", "big.pdf", 52428801⟩)).selectedFile = none ∧
      (handleFileSelect ⟨none, ""⟩
        (some ⟨"application/pdf", "big.pdf", 52428801⟩)).error ≠ "") :=
  ⟨(file_select_validation ⟨none, ""⟩ ⟨"text/plain", "notes.txt", 100⟩).1
      (by decide),
    (file_select_validation ⟨none, ""⟩
        ⟨"application/pdf", "big.pdf", 52428801⟩).2 (by decide)⟩

/-! ### C10: Chat.jsx query submission -/

/-- A chat message as kept in the `messages` state. -/
structure Msg where
  role : String
  content : String
deriving DecidableEq

/-- The component state touched by `handleQuery` before any response
streaming. -/
structure ChatState where
  messages : List Msg
  query : String
  loading : Bool
deriving DecidableEq

/-- JavaScript `String.prototype.trim()`: strip leading and trailing
whitespace. -/
def jsTrim (s : String) : String :=
  ⟨((s.data.dropWhile Char.isWhitespace).reverse.dropWhile
      Char.isWhitespace).reverse⟩

/-- The synchronous part of `handleQuery` from `Chat.jsx`: on a
whitespace-only query it returns immediately; otherwise it appends the user
message, clears the query box, sets loading, and issues the request (the
returned Boolean records whether a request was issued). -/
def handleQuery (s : ChatState) : ChatState × Bool :=
  if jsTrim s.query = "" then (s, false)
  else
    ({ messages := s.messages ++ [⟨"user", s.query⟩], query := "",
        loading := true }, true)

/-- C10: submitting the query form with an empty or whitespace-only query is
a no-op — no request is issued and messages, query text, and loading state
are all unchanged. -/
theorem empty_query_noop (s : ChatState)
    (h : s.query.data.all Char.isWhitespace = true) :
    handleQuery s = (s, false) := by
  have h' : ∀ c ∈ s.query.data, Char.isWhitespace c := by
    simpa [List.all_eq_true] using h
  have h1 : s.query.data.dropWhile Char.isWhitespace = [] :=
    List.dropWhile_eq_nil_iff.mpr h'
  have h2 : jsTrim s.query = "" := by
    unfold jsTrim
    rw [h1]
    rfl
  unfold handleQuery
  rw [if_pos h2]

/-- Witness for C10 on a whitespace-only query box. -/
theorem empty_query_noop_witness :
    handleQuery ⟨[], "  ", false⟩ = (⟨[], "  ", false⟩, false) :=
  empty_query_noop ⟨[], "  ", false⟩ (by decide)

end DocuMind
